import Mathlib

/-!
Verification of the spec-option-extractor pipeline of the specbuilder
repository.  The generated catalogs `code-options.js` and
`code-capabilities.js` are embedded verbatim as association-list records;
the extraction pipeline (entity builder, aggregator, serializer), whose
script is not part of the checked sources, is modelled from the spec.
-/

/-- A field value of a serialized catalog record: either a string literal
or the nested `parentOption` object `{ id, name }`. -/
inductive FVal where
  | s (v : String)
  | po (id name : String)
deriving DecidableEq, Repr

/-- A serialized record: the ordered field list of one object literal. -/
def JsRec := List (String × FVal)

instance : DecidableEq JsRec := inferInstanceAs (DecidableEq (List (String × FVal)))

/-- A catalog: the ordered mapping from category key to record sequence. -/
def Catalog := List (String × List JsRec)

instance : DecidableEq Catalog := inferInstanceAs (DecidableEq (List (String × List JsRec)))

/-- The field keys of a record, in serialization order. -/
def recKeys (r : JsRec) : List String := r.map (·.1)

/-- Look up a field of a record by key. -/
def getField (r : JsRec) (k : String) : Option FVal :=
  (r.find? (·.1 == k)).map (·.2)

/-- All records of a catalog, in category order then in-category order. -/
def allRecords (c : Catalog) : List JsRec := (c.map (·.2)).flatten

/-- The category keys of a catalog, in order. -/
def catalogKeys (c : Catalog) : List String := c.map (·.1)

/-- Embedding of `src/code-options.js`: the generated `CODE_OPTIONS`
literal, fields in source order. -/
def CODE_OPTIONS : Catalog := [
  ("commutation", [
    [("id", .s "trivial_commutation"),
     ("name", .s "Trivial Commutation"),
     ("description", .s "Full commutation of small pots below the trivial commutation limit."),
     ("whyItMatters", .s "Allows members with very small benefits to take a one-off lump sum instead of a pension."),
     ("codeClass", .s "TrivialCommutation"),
     ("scheme", .s "Core"),
     ("lastModified", .s "2025-09-20")]]),
  ("gmp", [
    [("id", .s "gmp_equaliser"),
     ("name", .s "GMP Equalisation (Dual Record)"),
     ("description", .s "Applies GMP equalisation using the dual-record method per Lloyds."),
     ("whyItMatters", .s "Required for schemes with members who have GMP service between 1990-1997."),
     ("codeClass", .s "GmpEqualiser"),
     ("scheme", .s "Core"),
     ("lastModified", .s "2025-12-01")]]),
  ("revaluation", [
    [("id", .s "cpi_capped_revaluation"),
     ("name", .s "CPI-Capped (s101)"),
     ("description", .s "Statutory revaluation capped at CPI rather than RPI."),
     ("whyItMatters", .s "The standard for post-97 deferred benefits under most modern schemes."),
     ("codeClass", .s "CpiCappedRevaluation"),
     ("scheme", .s "Core"),
     ("lastModified", .s "2025-11-15")],
    [("id", .s "fixed_rate_revaluation"),
     ("name", .s "Fixed Rate"),
     ("description", .s "Revaluation at a fixed annual rate specified in scheme rules."),
     ("codeClass", .s "FixedRateRevaluation"),
     ("scheme", .s "Core"),
     ("lastModified", .s "2025-10-01")]])]

/-- Embedding of `src/code-capabilities.js`: the generated
`CODE_CAPABILITIES` literal, fields in source order. -/
def CODE_CAPABILITIES : Catalog := [
  ("gmp", [
    [("id", .s "check_anti_franking"),
     ("name", .s "Anti-Franking Check"),
     ("description", .s "Checks whether excess pension above GMP is sufficient to cover GMP increases."),
     ("whyItMatters", .s "Prevents schemes from using GMP step-ups to reduce the total pension paid."),
     ("methodName", .s "CheckAntiFranking"),
     ("returnType", .s "bool"),
     ("parameters", .s "decimal totalPension, decimal gmpAmount, decimal gmpIncrease"),
     ("parentOption", .po "gmp_equaliser" "GMP Equalisation (Dual Record)"),
     ("codeClass", .s "GmpEqualiser"),
     ("scheme", .s "Core"),
     ("lastModified", .s "2025-12-01")],
    [("id", .s "apply_section148"),
     ("name", .s "Section 148 Revaluation"),
     ("description", .s "Applies s148 orders to revalue GMP between leaving and GMP pension age."),
     ("methodName", .s "ApplySection148"),
     ("returnType", .s "decimal"),
     ("parameters", .s "decimal gmp, decimal revaluationFactor"),
     ("parentOption", .po "gmp_equaliser" "GMP Equalisation (Dual Record)"),
     ("codeClass", .s "GmpEqualiser"),
     ("scheme", .s "Core"),
     ("lastModified", .s "2025-12-01")]]),
  ("revaluation", [
    [("id", .s "calculate_pro_rata"),
     ("name", .s "Pro-rata CPI Revaluation"),
     ("description", .s "Calculates CPI revaluation for a partial year period."),
     ("whyItMatters", .s "Needed when a member leaves mid-year."),
     ("methodName", .s "CalculateProRata"),
     ("returnType", .s "decimal"),
     ("parameters", .s "decimal pension, DateTime startDate, DateTime endDate, decimal partialFactor"),
     ("parentOption", .po "cpi_capped_revaluation" "CPI-Capped (s101)"),
     ("codeClass", .s "CpiCappedRevaluation"),
     ("scheme", .s "Core"),
     ("lastModified", .s "2025-11-15")]]),
  ("transfers", [
    [("id", .s "calculate_partial_cetv"),
     ("name", .s "Partial CETV"),
     ("description", .s "Calculates a partial cash equivalent transfer value."),
     ("whyItMatters", .s "Needed when a member transfers only part of their benefits."),
     ("methodName", .s "CalculatePartialCetv"),
     ("returnType", .s "decimal"),
     ("parameters", .s "decimal totalCetv, decimal proportion"),
     ("codeClass", .s "TransferCalculator"),
     ("scheme", .s "Core"),
     ("lastModified", .s "2025-11-20")],
    [("id", .s "calculate_club_transfer"),
     ("name", .s "Club Transfer Value"),
     ("description", .s "Calculates transfer value under the Public Sector Transfer Club."),
     ("methodName", .s "CalculateClubTransfer"),
     ("returnType", .s "decimal"),
     ("parameters", .s "decimal pension, decimal clubFactor"),
     ("codeClass", .s "TransferCalculator"),
     ("scheme", .s "Core"),
     ("lastModified", .s "2025-11-20")]])]

/-- The slug function as the spec describes it: lowercase, each maximal
run of non-alphanumeric characters replaced by a single underscore,
leading and trailing underscores trimmed.  Stated from the spec wording,
for comparison with the id generation the code actually performs. -/
def slugSpec (s : String) : String :=
  let marked := s.toList.map (fun c => if c.isAlphanum then c.toLower else ' ')
  String.mk (List.intercalate ['_'] ((marked.splitOn ' ').filter (· ≠ [])))

/-- Snake-case conversion of a CamelCase identifier: an underscore is
inserted before each interior uppercase letter and everything is
lowercased.  Modelled from the repository documentation of id generation
("IDs are auto-generated as snake_case from the class/method name") and
validated below against every id in the generated catalogs. -/
def camelToSnake (s : String) : String :=
  String.mk (s.toList.foldl
    (fun acc c =>
      if c.isUpper then
        (if acc.isEmpty then acc ++ [c.toLower] else acc ++ ['_', c.toLower])
      else acc ++ [c]) [])

/-- ASCII lowercasing of a string, character by character (used for
category keys: the catalogs key entries by the lowercased category). -/
def lowerAscii (s : String) : String := String.mk (s.data.map Char.toLower)

/-- Boolean lexicographic comparison of character lists (non-strict),
used for the deterministic key and path orderings of the pipeline. -/
def lexLe : List Char → List Char → Bool
  | [], _ => true
  | _ :: _, [] => false
  | a :: as, b :: bs =>
      if a < b then true else if b < a then false else lexLe as bs

/-- Non-strict order on strings via `lexLe`. -/
def strLe (a b : String) : Prop := lexLe a.data b.data = true

instance : DecidableRel strLe := fun a b =>
  inferInstanceAs (Decidable (lexLe a.data b.data = true))

/-- The category aggregator, modelled from the spec: groups a list of
(category key, record) pairs into a mapping ordered alphabetically by
key; within a category the records keep their input (file-scan) order. -/
def aggregate {α : Type} (es : List (String × α)) : List (String × List α) :=
  (List.insertionSort strLe (es.map (·.1)).dedup).map
    (fun k => (k, (es.filter (·.1 == k)).map (·.2)))

/-- A parsed attribute marker, modelled from the spec: the four named
arguments, each possibly absent. -/
structure Marker where
  category : Option String
  name : Option String
  description : Option String
  whyItMatters : Option String
deriving DecidableEq

/-- A bound method declaration, modelled from the spec: declared name,
return-type token, raw parameter-list text, visibility, and the
method-targeted marker when one decorates it. -/
structure MethodDecl where
  methodName : String
  returnType : String
  parameters : String
  isPublic : Bool
  isConstructor : Bool
  marker : Option Marker
deriving DecidableEq

/-- A bound class declaration, modelled from the spec: declared name,
the class-targeted marker when one decorates it, and its methods. -/
structure ClassDecl where
  className : String
  marker : Option Marker
  methods : List MethodDecl
deriving DecidableEq

/-- One scanned source file with its resolved per-file metadata,
modelled from the spec: scheme and date-only timestamp are derived once
per file at ingestion. -/
structure SrcFile where
  path : String
  scheme : String
  lastModified : String
  classes : List ClassDecl
deriving DecidableEq

/-- Emit the field only when the optional marker argument was given. -/
def optionalField (k : String) : Option String → List (String × FVal)
  | some v => [(k, FVal.s v)]
  | none => []

/-- Entity builder for Options, modelled from the spec: a class becomes
an Option iff its class-targeted marker has both category and name; the
id is the snake_case of the class name, the catalog key the lowercased
category, and the optional texts are emitted only when present. -/
def buildOptionRec (f : SrcFile) (c : ClassDecl) : Option (String × JsRec) :=
  match c.marker with
  | none => none
  | some m =>
    match m.category, m.name with
    | some cat, some nm =>
        some (lowerAscii cat,
          [("id", FVal.s (camelToSnake c.className)), ("name", FVal.s nm)]
          ++ optionalField "description" m.description
          ++ optionalField "whyItMatters" m.whyItMatters
          ++ [("codeClass", FVal.s c.className), ("scheme", FVal.s f.scheme),
              ("lastModified", FVal.s f.lastModified)])
    | _, _ => none

/-- The id and display name of the Option a class yields, when it
yields one: the parent back-reference recorded on its capabilities. -/
def classParent (c : ClassDecl) : Option (String × String) :=
  match c.marker with
  | none => none
  | some m =>
    match m.category, m.name with
    | some _, some nm => some (camelToSnake c.className, nm)
    | _, _ => none

/-- Entity builder for Capabilities, modelled from the spec: a method
becomes a Capability iff its method-targeted marker has both category
and name, regardless of the enclosing class; `parentOption` is emitted
exactly when the enclosing class also yields an Option. -/
def buildCapRec (f : SrcFile) (c : ClassDecl) (meth : MethodDecl) :
    Option (String × JsRec) :=
  match meth.marker with
  | none => none
  | some m =>
    match m.category, m.name with
    | some cat, some nm =>
        some (lowerAscii cat,
          [("id", FVal.s (camelToSnake meth.methodName)), ("name", FVal.s nm)]
          ++ optionalField "description" m.description
          ++ optionalField "whyItMatters" m.whyItMatters
          ++ [("methodName", FVal.s meth.methodName),
              ("returnType", FVal.s meth.returnType),
              ("parameters", FVal.s meth.parameters)]
          ++ (match classParent c with
              | some (pid, pname) => [("parentOption", FVal.po pid pname)]
              | none => [])
          ++ [("codeClass", FVal.s c.className), ("scheme", FVal.s f.scheme),
              ("lastModified", FVal.s f.lastModified)])
    | _, _ => none

/-- Deterministic file ordering, modelled from the spec: files are
processed in lexical path order, so enumeration order cannot leak into
the output. -/
def sortByPath (fs : List SrcFile) : List SrcFile :=
  List.insertionSort (fun a b => lexLe a.path.data b.path.data = true) fs

/-- All Option entities of one file, as (category key, record) pairs. -/
def fileOptionEntities (f : SrcFile) : List (String × JsRec) :=
  f.classes.filterMap (buildOptionRec f)

/-- All Capability entities of one file, as (category key, record)
pairs, classes in declaration order and methods in declaration order. -/
def fileCapabilityEntities (f : SrcFile) : List (String × JsRec) :=
  (f.classes.map (fun c => c.methods.filterMap (buildCapRec f c))).flatten

/-- The whole in-memory build of a run, modelled from the spec: scan in
lexical path order, build entities per file, aggregate by category. -/
def buildCatalogs (fs : List SrcFile) : Catalog × Catalog :=
  let s := sortByPath fs
  (aggregate ((s.map fileOptionEntities).flatten),
   aggregate ((s.map fileCapabilityEntities).flatten))

/-- Serialization of one field value. -/
def renderFVal : FVal → String
  | .s v => "\"" ++ v ++ "\""
  | .po i n => "\x7b id: \"" ++ i ++ "\", name: \"" ++ n ++ "\" \x7d"

/-- Serialization of one field. -/
def renderField (kv : String × FVal) : String := kv.1 ++ ": " ++ renderFVal kv.2

/-- Serialization of one record. -/
def renderRec (r : JsRec) : String :=
  "\x7b " ++ String.intercalate ", " (r.map renderField) ++ " \x7d"

/-- Serialization of one category entry. -/
def renderCategory (kl : String × List JsRec) : String :=
  kl.1 ++ ": [" ++ String.intercalate ", " (kl.2.map renderRec) ++ "]"

/-- Catalog serializer, modelled from the spec: a named, deterministic
structured-data literal. -/
def renderCatalog (nm : String) (c : Catalog) : String :=
  "const " ++ nm ++ " = \x7b" ++
    String.intercalate ", " (c.map renderCategory) ++ "\x7d;"

/-- One full extraction run, modelled from the spec: the pair of
serialized catalog outputs (`code-options.js`, `code-capabilities.js`). -/
def extractRun (fs : List SrcFile) : String × String :=
  let bc := buildCatalogs fs
  (renderCatalog "CODE_OPTIONS" bc.1, renderCatalog "CODE_CAPABILITIES" bc.2)

/-- Truncation of a timestamp to its calendar-date part, modelled from
the spec: everything before the time separator `T` is kept. -/
def truncateToDate (s : String) : String :=
  String.mk (s.data.takeWhile (· ≠ 'T'))

/-- One record of a structured-mode (JSON) input file, as documented:
moduleName, scheme, code, lastModified. -/
structure JsonRecord where
  moduleName : String
  scheme : String
  code : String
  lastModified : String
deriving DecidableEq

/-- Structured-input ingestion, modelled from the spec: scheme and
timestamp are taken verbatim from the record's fields, the timestamp
truncated to date; the record's code text parses to the given classes. -/
def ingestJsonRecord (r : JsonRecord) (classes : List ClassDecl) : SrcFile :=
  { path := r.moduleName, scheme := r.scheme,
    lastModified := truncateToDate r.lastModified, classes := classes }

/-- Externally visible methods of a class (public, non-constructor),
modelled from the spec's coverage rule. -/
def visibleMethods (c : ClassDecl) : List MethodDecl :=
  c.methods.filter (fun m => m.isPublic && !m.isConstructor)

/-- Whether a marker is eligible to produce an entity: both category and
name are present. -/
def eligibleMarker : Option Marker → Bool
  | some m => m.category.isSome && m.name.isSome
  | none => false

/-- The visible methods of a class that carry an eligible Capability
marker. -/
def documentedMethods (c : ClassDecl) : List MethodDecl :=
  (visibleMethods c).filter (fun m => eligibleMarker m.marker)

/-- Per-class coverage fraction, modelled from the spec: K/N for a class
with N visible methods of which K are documented; a class with zero
visible methods is reported as fully covered (100%), uniformly, with no
division performed. -/
def coverageFraction (c : ClassDecl) : ℚ :=
  if (visibleMethods c).length = 0 then 1
  else ((documentedMethods c).length : ℚ) / ((visibleMethods c).length : ℚ)

/-- The i-th Option record of the generated options catalog. -/
def optionRecord (i : Nat) : JsRec := (allRecords CODE_OPTIONS).getD i []

/-- The i-th Capability record of the generated capabilities catalog. -/
def capabilityRecord (i : Nat) : JsRec := (allRecords CODE_CAPABILITIES).getD i []

/-- The id a record would get from snake-casing its codeClass field. -/
def idFromClass (r : JsRec) : Option FVal :=
  (getField r "codeClass").map (fun v => match v with
    | FVal.s c => FVal.s (camelToSnake c)
    | x => x)

/-- The id a record would get from snake-casing its methodName field. -/
def idFromMethod (r : JsRec) : Option FVal :=
  (getField r "methodName").map (fun v => match v with
    | FVal.s c => FVal.s (camelToSnake c)
    | x => x)

/-- Whether a capability record's parent back-reference resolves in the
options catalog to a record with the very same id and display name and
the same per-class metadata (codeClass, scheme, lastModified); records
without a parent pass vacuously. -/
def parentResolved (opts : Catalog) (r : JsRec) : Bool :=
  match getField r "parentOption" with
  | some (FVal.po pid pname) =>
      (allRecords opts).any (fun o =>
        decide (getField o "id" = some (FVal.s pid)) &&
        decide (getField o "name" = some (FVal.s pname)) &&
        decide (getField o "codeClass" = getField r "codeClass") &&
        decide (getField o "scheme" = getField r "scheme") &&
        decide (getField o "lastModified" = getField r "lastModified"))
  | _ => true

/-- The decorated sample class of
`spec-option-extractor/sample-modules/Core/FixedRateRevaluation.cs`. -/
def fixedRateClass : ClassDecl :=
  { className := "FixedRateRevaluation",
    marker := some
      { category := some "Revaluation", name := some "Fixed Rate",
        description := some "Revaluation at a fixed annual rate specified in scheme rules.",
        whyItMatters := none },
    methods := [
      { methodName := "Calculate", returnType := "decimal",
        parameters := "decimal pension, DateTime startDate, DateTime endDate",
        isPublic := true, isConstructor := false, marker := none }] }

/-- The sample file `Core/FixedRateRevaluation.cs` with its resolved
scheme and timestamp. -/
def sampleFileA : SrcFile :=
  { path := "Core/FixedRateRevaluation.cs", scheme := "Core",
    lastModified := "2025-10-01", classes := [fixedRateClass] }

/-- The sample class `TransferCalculator`: two decorated public methods
in a class without a class-level marker. -/
def transferCalculatorClass : ClassDecl :=
  { className := "TransferCalculator", marker := none,
    methods := [
      { methodName := "CalculatePartialCetv", returnType := "decimal",
        parameters := "decimal totalCetv, decimal proportion",
        isPublic := true, isConstructor := false,
        marker := some
          { category := some "Transfers", name := some "Partial CETV",
            description := some "Calculates a partial cash equivalent transfer value.",
            whyItMatters := some "Needed when a member transfers only part of their benefits." } },
      { methodName := "CalculateClubTransfer", returnType := "decimal",
        parameters := "decimal pension, decimal clubFactor",
        isPublic := true, isConstructor := false,
        marker := some
          { category := some "Transfers", name := some "Club Transfer Value",
            description := some "Calculates transfer value under the Public Sector Transfer Club.",
            whyItMatters := none } }] }

/-- The sample file `Core/TransferCalculator.cs`. -/
def sampleFileB : SrcFile :=
  { path := "Core/TransferCalculator.cs", scheme := "Core",
    lastModified := "2025-11-20", classes := [transferCalculatorClass] }

/-- The sample class `GmpEqualiser`: three public methods of which two
carry a Capability marker (its coverage line reads 2/3). -/
def gmpEqualiserClass : ClassDecl :=
  { className := "GmpEqualiser",
    marker := some
      { category := some "GMP", name := some "GMP Equalisation (Dual Record)",
        description := some "Applies GMP equalisation using the dual-record method per Lloyds.",
        whyItMatters := some "Required for schemes with members who have GMP service between 1990-1997." },
    methods := [
      { methodName := "CheckAntiFranking", returnType := "bool",
        parameters := "decimal totalPension, decimal gmpAmount, decimal gmpIncrease",
        isPublic := true, isConstructor := false,
        marker := some
          { category := some "GMP", name := some "Anti-Franking Check",
            description := some "Checks whether excess pension above GMP is sufficient to cover GMP increases.",
            whyItMatters := some "Prevents schemes from using GMP step-ups to reduce the total pension paid." } },
      { methodName := "ApplySection148", returnType := "decimal",
        parameters := "decimal gmp, decimal revaluationFactor",
        isPublic := true, isConstructor := false,
        marker := some
          { category := some "GMP", name := some "Section 148 Revaluation",
            description := some "Applies s148 orders to revalue GMP between leaving and GMP pension age.",
            whyItMatters := none } },
      { methodName := "Equalise", returnType := "decimal",
        parameters := "decimal malePension, decimal femalePension",
        isPublic := true, isConstructor := false, marker := none }] }

/-- A class with no externally visible method at all: the 0/0 coverage
corner case. -/
def noVisibleMethodsClass : ClassDecl :=
  { className := "HiddenHelper", marker := none,
    methods := [
      { methodName := "HiddenHelper", returnType := "",
        parameters := "", isPublic := true, isConstructor := true, marker := none },
      { methodName := "Internal", returnType := "void",
        parameters := "", isPublic := false, isConstructor := false, marker := none }] }

theorem lexLe_total : ∀ as bs : List Char, lexLe as bs = true ∨ lexLe bs as = true
  | [], _ => Or.inl rfl
  | _ :: _, [] => Or.inr rfl
  | a :: as, b :: bs => by
      rcases lt_trichotomy a b with h | h | h
      · exact Or.inl (by simp [lexLe, h])
      · subst h
        rcases lexLe_total as bs with ih | ih
        · exact Or.inl (by simp [lexLe, ih])
        · exact Or.inr (by simp [lexLe, ih])
      · exact Or.inr (by simp [lexLe, h])

theorem lexLe_trans : ∀ as bs cs : List Char,
    lexLe as bs = true → lexLe bs cs = true → lexLe as cs = true
  | [], _, _, _, _ => rfl
  | _ :: _, [], _, h1, _ => by simp [lexLe] at h1
  | _ :: _, _ :: _, [], _, h2 => by simp [lexLe] at h2
  | a :: as, b :: bs, c :: cs, h1, h2 => by
      rcases lt_trichotomy a b with hab | hab | hab
      · rcases lt_trichotomy b c with hbc | hbc | hbc
        · simp [lexLe, lt_trans hab hbc]
        · subst hbc; simp [lexLe, hab]
        · simp [lexLe, hbc, not_lt_of_gt hbc] at h2
      · subst hab
        rcases lt_trichotomy a c with hac | hac | hac
        · simp [lexLe, hac]
        · subst hac
          simp only [lexLe, lt_irrefl, if_false] at h1 h2 ⊢
          exact lexLe_trans as bs cs h1 h2
        · simp [lexLe, hac, not_lt_of_gt hac] at h2
      · simp [lexLe, hab, not_lt_of_gt hab] at h1

theorem lexLe_antisymm : ∀ as bs : List Char,
    lexLe as bs = true → lexLe bs as = true → as = bs
  | [], [], _, _ => rfl
  | [], _ :: _, _, h2 => by simp [lexLe] at h2
  | _ :: _, [], h1, _ => by simp [lexLe] at h1
  | a :: as, b :: bs, h1, h2 => by
      rcases lt_trichotomy a b with hab | hab | hab
      · simp [lexLe, hab, not_lt_of_gt hab] at h2
      · subst hab
        simp only [lexLe, lt_irrefl, if_false] at h1 h2
        exact congrArg (a :: ·) (lexLe_antisymm as bs h1 h2)
      · simp [lexLe, hab, not_lt_of_gt hab] at h1

theorem string_data_inj {s t : String} (h : s.data = t.data) : s = t := by
  cases s; cases t; exact congrArg String.mk h

theorem takeWhile_append_all {p : Char → Bool} :
    ∀ (d t : List Char), (∀ c ∈ d, p c = true) → p 'T' = false →
      (d ++ 'T' :: t).takeWhile p = d
  | [], t, _, hT => by simp [List.takeWhile, hT]
  | c :: d, t, h, hT => by
      have hc : p c = true := h c (List.mem_cons_self c d)
      simp only [List.cons_append, List.takeWhile, hc]
      exact congrArg (c :: ·) (takeWhile_append_all d t (fun x hx => h x (List.mem_cons_of_mem c hx)) hT)

theorem sortByPath_eq_of_perm (fs1 fs2 : List SrcFile) (hperm : fs1.Perm fs2)
    (hnd : (fs1.map SrcFile.path).Nodup) : sortByPath fs1 = sortByPath fs2 := by
  classical
  set r : SrcFile → SrcFile → Prop := fun a b => lexLe a.path.data b.path.data = true with hr
  haveI hrt : IsTotal SrcFile r := ⟨fun a b => lexLe_total a.path.data b.path.data⟩
  haveI hrtr : IsTrans SrcFile r :=
    ⟨fun a b c => lexLe_trans a.path.data b.path.data c.path.data⟩
  have hs1 : List.Sorted r (sortByPath fs1) := List.sorted_insertionSort r fs1
  have hs2 : List.Sorted r (sortByPath fs2) := List.sorted_insertionSort r fs2
  have hp1 : (sortByPath fs1).Perm fs1 := List.perm_insertionSort r fs1
  have hp2 : (sortByPath fs2).Perm fs2 := List.perm_insertionSort r fs2
  have hp : (sortByPath fs1).Perm (sortByPath fs2) :=
    (hp1.trans hperm).trans hp2.symm
  have hnd1 : ((sortByPath fs1).map SrcFile.path).Nodup :=
    ((hp1.map SrcFile.path).nodup_iff).mpr hnd
  have hnd2 : ((sortByPath fs2).map SrcFile.path).Nodup :=
    ((hp.map SrcFile.path).nodup_iff).mp hnd1
  set r' : SrcFile → SrcFile → Prop := fun a b => r a b ∧ a.path ≠ b.path with hr'
  haveI : IsAntisymm SrcFile r' := ⟨fun a b h1 h2 =>
    absurd (string_data_inj (lexLe_antisymm _ _ h1.1 h2.1)) h1.2⟩
  have hpair1 : List.Pairwise (fun a b : SrcFile => a.path ≠ b.path) (sortByPath fs1) :=
    List.pairwise_map.mp hnd1
  have hpair2 : List.Pairwise (fun a b : SrcFile => a.path ≠ b.path) (sortByPath fs2) :=
    List.pairwise_map.mp hnd2
  have hs1' : List.Sorted r' (sortByPath fs1) := hs1.and hpair1
  have hs2' : List.Sorted r' (sortByPath fs2) := hs2.and hpair2
  exact List.eq_of_perm_of_sorted hp hs1' hs2'

theorem aggregate_keys_sorted {α : Type} (es : List (String × α)) :
    List.Sorted strLe ((aggregate es).map Prod.fst) := by
  haveI : IsTotal String strLe := ⟨fun a b => lexLe_total a.data b.data⟩
  haveI : IsTrans String strLe := ⟨fun a b c => lexLe_trans a.data b.data c.data⟩
  have h : (aggregate es).map Prod.fst
      = List.insertionSort strLe (es.map (·.1)).dedup := by
    simp only [aggregate, List.map_map]
    exact List.map_id _
  rw [h]
  exact List.sorted_insertionSort strLe _

theorem aggregate_lookup {α : Type} (es : List (String × α)) (k : String) (l : List α)
    (hmem : (k, l) ∈ aggregate es) : l = (es.filter (·.1 == k)).map (·.2) := by
  rcases List.mem_map.mp hmem with ⟨k', _, hk⟩
  cases hk
  rfl

/-- C1 counterexample: the generated record for the class marked
name="Fixed Rate" has id "fixed_rate_revaluation", not the slug
"fixed_rate" of its Name argument. -/
theorem C1_counterexample :
    getField (optionRecord 3) "name" = some (FVal.s "Fixed Rate") ∧
    getField (optionRecord 3) "id" = some (FVal.s "fixed_rate_revaluation") ∧
    slugSpec "Fixed Rate" = "fixed_rate" ∧
    getField (optionRecord 3) "id" ≠ some (FVal.s (slugSpec "Fixed Rate")) := by
  decide

/-- C1 (amended): every emitted Option's id is the snake_case conversion
of the enclosing class name, both in the builder model and in every
record of the generated options catalog. -/
theorem C1_option_id_snake_of_class :
    (∀ (f : SrcFile) (c : ClassDecl) (k : String) (r : JsRec),
      buildOptionRec f c = some (k, r) →
      getField r "id" = some (FVal.s (camelToSnake c.className))) ∧
    (∀ r ∈ allRecords CODE_OPTIONS, getField r "id" = idFromClass r) := by
  constructor
  · intro f c k r h
    rcases hm : c.marker with _ | m
    · simp [buildOptionRec, hm] at h
    · rcases hc : m.category with _ | cat
      · simp [buildOptionRec, hm, hc] at h
      · rcases hn : m.name with _ | nm
        · simp [buildOptionRec, hm, hc, hn] at h
        · simp only [buildOptionRec, hm, hc, hn, Option.some.injEq, Prod.mk.injEq] at h
          obtain ⟨hk, hrec⟩ := h
          subst hrec
          rfl
  · decide

/-- C1 witness: the Fixed Rate record's id is the snake_case of its
codeClass. -/
theorem C1_witness :
    getField (optionRecord 3) "id" = idFromClass (optionRecord 3) :=
  C1_option_id_snake_of_class.2 (optionRecord 3) (by decide)

/-- C2 counterexample: the Partial CETV capability's class produced no
Option, yet its serialized record omits the parentOption field
entirely, contradicting present-but-empty. -/
theorem C2_counterexample :
    getField (capabilityRecord 3) "codeClass" = some (FVal.s "TransferCalculator") ∧
    ((allRecords CODE_OPTIONS).all
      (fun o => !(decide (getField o "codeClass" = some (FVal.s "TransferCalculator"))))) = true ∧
    "parentOption" ∉ recKeys (capabilityRecord 3) := by
  decide

/-- C2 (amended): when a capability's enclosing class produced no
Option, the serialized record omits the parentOption field entirely:
in the builder model and in every generated capability record whose
codeClass matches no options-catalog record. -/
theorem C2_standalone_parent_omitted :
    (∀ (f : SrcFile) (c : ClassDecl) (meth : MethodDecl) (k : String) (r : JsRec),
      buildCapRec f c meth = some (k, r) → classParent c = none →
      "parentOption" ∉ recKeys r) ∧
    (∀ r ∈ allRecords CODE_CAPABILITIES,
      ((allRecords CODE_OPTIONS).all
        (fun o => !(decide (getField o "codeClass" = getField r "codeClass")))) = true →
      "parentOption" ∉ recKeys r) := by
  constructor
  · intro f c meth k r h hp
    rcases hm : meth.marker with _ | m
    · simp [buildCapRec, hm] at h
    · rcases hc : m.category with _ | cat
      · simp [buildCapRec, hm, hc] at h
      · rcases hn : m.name with _ | nm
        · simp [buildCapRec, hm, hc, hn] at h
        · simp only [buildCapRec, hm, hc, hn, Option.some.injEq, Prod.mk.injEq] at h
          obtain ⟨hk, hrec⟩ := h
          subst hrec
          rcases hd : m.description with _ | dsc <;>
            rcases hw : m.whyItMatters with _ | why <;>
            simp [recKeys, optionalField, hp, hd, hw]
  · decide

/-- C2 witness: the Partial CETV record omits parentOption. -/
theorem C2_witness : "parentOption" ∉ recKeys (capabilityRecord 3) :=
  C2_standalone_parent_omitted.2 (capabilityRecord 3) (by decide) (by decide)

/-- C3 counterexample: under the claimed slug rule, the id
"gmp_equaliser" of the GMP option matches the slug of neither its
display name nor its class name; it is the snake_case of the class
name instead. -/
theorem C3_counterexample :
    getField (optionRecord 1) "id" = some (FVal.s "gmp_equaliser") ∧
    getField (optionRecord 1) "name" = some (FVal.s "GMP Equalisation (Dual Record)") ∧
    getField (optionRecord 1) "codeClass" = some (FVal.s "GmpEqualiser") ∧
    slugSpec "GMP Equalisation (Dual Record)" = "gmp_equalisation_dual_record" ∧
    slugSpec "GmpEqualiser" = "gmpequaliser" ∧
    "gmp_equaliser" ≠ "gmp_equalisation_dual_record" ∧
    "gmp_equaliser" ≠ "gmpequaliser" ∧
    camelToSnake "GmpEqualiser" = "gmp_equaliser" := by
  decide

/-- C3 (amended): identifier slugs are CamelCase-to-snake_case
conversions of the class or method identifier, with an underscore
inserted before each interior uppercase letter; display names are not
slugged.  Verified on the builder model and on every generated
capability record. -/
theorem C3_slug_snake_case :
    (∀ (f : SrcFile) (c : ClassDecl) (meth : MethodDecl) (k : String) (r : JsRec),
      buildCapRec f c meth = some (k, r) →
      getField r "id" = some (FVal.s (camelToSnake meth.methodName))) ∧
    (∀ r ∈ allRecords CODE_CAPABILITIES, getField r "id" = idFromMethod r) ∧
    camelToSnake "GmpEqualiser" = "gmp_equaliser" ∧
    camelToSnake "CheckAntiFranking" = "check_anti_franking" := by
  refine ⟨?_, by decide, by decide, by decide⟩
  intro f c meth k r h
  rcases hm : meth.marker with _ | m
  · simp [buildCapRec, hm] at h
  · rcases hc : m.category with _ | cat
    · simp [buildCapRec, hm, hc] at h
    · rcases hn : m.name with _ | nm
      · simp [buildCapRec, hm, hc, hn] at h
      · simp only [buildCapRec, hm, hc, hn, Option.some.injEq, Prod.mk.injEq] at h
        obtain ⟨hk, hrec⟩ := h
        subst hrec
        rfl

/-- C3 witness: the Anti-Franking Check record's id is the snake_case
of its methodName. -/
theorem C3_witness :
    getField (capabilityRecord 0) "id" = idFromMethod (capabilityRecord 0) :=
  C3_slug_snake_case.2.1 (capabilityRecord 0) (by decide)

/-- C4: a capability record carries parentOption iff its enclosing
class produced an Option in the same run; a marked method in an
unmarked class still yields a capability.  Shown on the builder model
and on the generated catalogs. -/
theorem C4_parent_iff_option :
    (∀ (f : SrcFile) (c : ClassDecl) (meth : MethodDecl) (k : String) (r : JsRec),
      buildCapRec f c meth = some (k, r) →
      ("parentOption" ∈ recKeys r ↔ (buildOptionRec f c).isSome = true)) ∧
    (∀ (f : SrcFile) (c : ClassDecl) (meth : MethodDecl),
      eligibleMarker meth.marker = true → (buildCapRec f c meth).isSome = true) ∧
    (∀ r ∈ allRecords CODE_CAPABILITIES,
      ("parentOption" ∈ recKeys r ↔
        ((allRecords CODE_OPTIONS).any
          (fun o => decide (getField o "codeClass" = getField r "codeClass"))) = true)) := by
  refine ⟨?_, ?_, by decide⟩
  · intro f c meth k r h
    have hbo : (buildOptionRec f c).isSome = (classParent c).isSome := by
      rcases hm2 : c.marker with _ | m2
      · simp [buildOptionRec, classParent, hm2]
      · rcases hc2 : m2.category with _ | c2 <;> rcases hn2 : m2.name with _ | n2 <;>
          simp [buildOptionRec, classParent, hm2, hc2, hn2]
    rw [hbo]
    rcases hm : meth.marker with _ | m
    · simp [buildCapRec, hm] at h
    · rcases hc : m.category with _ | cat
      · simp [buildCapRec, hm, hc] at h
      · rcases hn : m.name with _ | nm
        · simp [buildCapRec, hm, hc, hn] at h
        · simp only [buildCapRec, hm, hc, hn, Option.some.injEq, Prod.mk.injEq] at h
          obtain ⟨hk, hrec⟩ := h
          subst hrec
          rcases hp : classParent c with _ | ⟨pid, pname⟩ <;>
            rcases hd : m.description with _ | dsc <;>
            rcases hw : m.whyItMatters with _ | why <;>
            simp [recKeys, optionalField, hp, hd, hw]
  · intro f c meth hel
    rcases hm : meth.marker with _ | m
    · simp [eligibleMarker, hm] at hel
    · simp only [eligibleMarker, hm, Bool.and_eq_true, Option.isSome_iff_exists] at hel
      obtain ⟨⟨cat, hc⟩, ⟨nm, hn⟩⟩ := hel
      simp [buildCapRec, hm, hc, hn]

/-- C4 witness: the Partial CETV method of the unmarked
TransferCalculator class still yields a capability. -/
theorem C4_witness :
    (buildCapRec sampleFileB transferCalculatorClass
      (transferCalculatorClass.methods.getD 0 ⟨"", "", "", false, false, none⟩)).isSome = true :=
  C4_parent_iff_option.2.1 sampleFileB transferCalculatorClass _ (by decide)

/-- C6 counterexample: the Fixed Rate record, whose marker omitted
WhyItMatters, carries no whyItMatters field, and no record carries a
category field (category is the catalog key). -/
theorem C6_counterexample :
    recKeys (optionRecord 3) =
      ["id", "name", "description", "codeClass", "scheme", "lastModified"] ∧
    "whyItMatters" ∉ recKeys (optionRecord 3) ∧
    "category" ∉ recKeys (optionRecord 0) ∧
    "category" ∉ recKeys (optionRecord 3) := by
  decide

/-- C6 (amended): an emitted Option record's key list is exactly id,
name, then description and whyItMatters each present only when the
marker provided that argument, then codeClass, scheme, lastModified; a
Capability record additionally carries methodName, returnType,
parameters, then parentOption present only when the enclosing class
produced an Option; category is never a record field.  In the
generated catalogs every record's key list is one of the resulting
shapes. -/
theorem C6_record_field_lists :
    (∀ (f : SrcFile) (c : ClassDecl) (m : Marker) (k : String) (r : JsRec),
      c.marker = some m → buildOptionRec f c = some (k, r) →
      recKeys r = ["id", "name"]
        ++ (if m.description.isSome then ["description"] else [])
        ++ (if m.whyItMatters.isSome then ["whyItMatters"] else [])
        ++ ["codeClass", "scheme", "lastModified"]) ∧
    (∀ (f : SrcFile) (c : ClassDecl) (meth : MethodDecl) (m : Marker)
        (k : String) (r : JsRec),
      meth.marker = some m → buildCapRec f c meth = some (k, r) →
      recKeys r = ["id", "name"]
        ++ (if m.description.isSome then ["description"] else [])
        ++ (if m.whyItMatters.isSome then ["whyItMatters"] else [])
        ++ ["methodName", "returnType", "parameters"]
        ++ (if (buildOptionRec f c).isSome then ["parentOption"] else [])
        ++ ["codeClass", "scheme", "lastModified"]) ∧
    (∀ r ∈ allRecords CODE_OPTIONS,
      recKeys r = ["id", "name", "description", "whyItMatters",
        "codeClass", "scheme", "lastModified"] ∨
      recKeys r = ["id", "name", "description",
        "codeClass", "scheme", "lastModified"]) ∧
    (∀ r ∈ allRecords CODE_CAPABILITIES,
      recKeys r = ["id", "name", "description", "whyItMatters", "methodName",
        "returnType", "parameters", "parentOption", "codeClass", "scheme", "lastModified"] ∨
      recKeys r = ["id", "name", "description", "methodName",
        "returnType", "parameters", "parentOption", "codeClass", "scheme", "lastModified"] ∨
      recKeys r = ["id", "name", "description", "whyItMatters", "methodName",
        "returnType", "parameters", "codeClass", "scheme", "lastModified"] ∨
      recKeys r = ["id", "name", "description", "methodName",
        "returnType", "parameters", "codeClass", "scheme", "lastModified"]) := by
  refine ⟨?_, ?_, by decide, by decide⟩
  · intro f c m k r hm h
    rcases hc : m.category with _ | cat
    · simp [buildOptionRec, hm, hc] at h
    · rcases hn : m.name with _ | nm
      · simp [buildOptionRec, hm, hc, hn] at h
      · simp only [buildOptionRec, hm, hc, hn, Option.some.injEq, Prod.mk.injEq] at h
        obtain ⟨hk, hrec⟩ := h
        subst hrec
        rcases hd : m.description with _ | dsc <;>
          rcases hw : m.whyItMatters with _ | why <;>
          simp [recKeys, optionalField, hd, hw]
  · intro f c meth m k r hm h
    have hbo : (buildOptionRec f c).isSome = (classParent c).isSome := by
      rcases hm2 : c.marker with _ | m2
      · simp [buildOptionRec, classParent, hm2]
      · rcases hc2 : m2.category with _ | c2 <;> rcases hn2 : m2.name with _ | n2 <;>
          simp [buildOptionRec, classParent, hm2, hc2, hn2]
    rw [hbo]
    rcases hc : m.category with _ | cat
    · simp [buildCapRec, hm, hc] at h
    · rcases hn : m.name with _ | nm
      · simp [buildCapRec, hm, hc, hn] at h
      · simp only [buildCapRec, hm, hc, hn, Option.some.injEq, Prod.mk.injEq] at h
        obtain ⟨hk, hrec⟩ := h
        subst hrec
        rcases hp : classParent c with _ | ⟨pid, pname⟩ <;>
          rcases hd : m.description with _ | dsc <;>
          rcases hw : m.whyItMatters with _ | why <;>
          simp [recKeys, optionalField, hp, hd, hw]

/-- C6 witness: the builder applied to the Fixed Rate sample class,
whose marker omitted WhyItMatters, emits exactly the keys id, name,
description, codeClass, scheme, lastModified: no whyItMatters and no
category key. -/
theorem C6_witness :
    recKeys [("id", FVal.s "fixed_rate_revaluation"), ("name", FVal.s "Fixed Rate"),
      ("description", FVal.s "Revaluation at a fixed annual rate specified in scheme rules."),
      ("codeClass", FVal.s "FixedRateRevaluation"), ("scheme", FVal.s "Core"),
      ("lastModified", FVal.s "2025-10-01")] =
      ["id", "name", "description", "codeClass", "scheme", "lastModified"] :=
  C6_record_field_lists.1 sampleFileA fixedRateClass
    { category := some "Revaluation", name := some "Fixed Rate",
      description := some "Revaluation at a fixed annual rate specified in scheme rules.",
      whyItMatters := none }
    "revaluation"
    [("id", FVal.s "fixed_rate_revaluation"), ("name", FVal.s "Fixed Rate"),
     ("description", FVal.s "Revaluation at a fixed annual rate specified in scheme rules."),
     ("codeClass", FVal.s "FixedRateRevaluation"), ("scheme", FVal.s "Core"),
     ("lastModified", FVal.s "2025-10-01")]
    (by decide) (by decide)

/-- C10: every capability record's parentOption back-reference resolves
in the options catalog to a record with that id whose name equals the
embedded name and whose codeClass, scheme and lastModified equal the
capability's. -/
theorem C10_parent_integrity :
    ∀ r ∈ allRecords CODE_CAPABILITIES, parentResolved CODE_OPTIONS r = true := by
  decide

/-- C10 witness: the Anti-Franking Check record's parent resolves. -/
theorem C10_witness : parentResolved CODE_OPTIONS (capabilityRecord 0) = true :=
  C10_parent_integrity (capabilityRecord 0) (by decide)

/-- C5: extraction is deterministic: two runs over the same unchanged
corpus, even enumerated in different orders, serialize byte-identical
catalog outputs. -/
theorem C5_extraction_deterministic (fs1 fs2 : List SrcFile)
    (hperm : fs1.Perm fs2) (hnd : (fs1.map SrcFile.path).Nodup) :
    extractRun fs1 = extractRun fs2 := by
  have hs : sortByPath fs1 = sortByPath fs2 := sortByPath_eq_of_perm fs1 fs2 hperm hnd
  simp [extractRun, buildCatalogs, hs]

/-- C5 witness: the two sample files scanned in either order produce
identical serialized catalogs. -/
theorem C5_witness :
    extractRun [sampleFileB, sampleFileA] = extractRun [sampleFileA, sampleFileB] :=
  C5_extraction_deterministic [sampleFileB, sampleFileA] [sampleFileA, sampleFileB]
    (List.Perm.swap sampleFileA sampleFileB []) (by decide)

/-- C7: in both generated catalogs the category keys are lowercase and
strictly alphabetically ordered, and the aggregator always emits
alphabetically sorted keys with each category holding exactly the
input-order subsequence of its entities. -/
theorem C7_category_ordering :
    List.Sorted (fun a b : String => a.data < b.data) (catalogKeys CODE_OPTIONS) ∧
    List.Sorted (fun a b : String => a.data < b.data) (catalogKeys CODE_CAPABILITIES) ∧
    (∀ k ∈ catalogKeys CODE_OPTIONS ++ catalogKeys CODE_CAPABILITIES,
      (k.data.all (fun c => !c.isUpper)) = true) ∧
    (∀ es : List (String × JsRec), List.Sorted strLe ((aggregate es).map Prod.fst)) ∧
    (∀ (es : List (String × JsRec)) (k : String) (l : List JsRec),
      (k, l) ∈ aggregate es → l = (es.filter (·.1 == k)).map (·.2)) :=
  ⟨by decide, by decide, by decide,
   fun es => aggregate_keys_sorted es,
   fun es k l h => aggregate_lookup es k l h⟩

/-- C7 witness: aggregating two categories given in reverse order
yields the alphabetical mapping with input order kept inside each
category. -/
theorem C7_witness :
    [optionRecord 1] =
      (([("gmp", optionRecord 0), ("alpha", optionRecord 1)].filter (·.1 == "alpha")).map (·.2)) :=
  C7_category_ordering.2.2.2.2 [("gmp", optionRecord 0), ("alpha", optionRecord 1)]
    "alpha" [optionRecord 1] (by decide)

/-- C8: structured-input (JSON) mode serializes lastModified as the
record's value truncated to its calendar-date part: the part before the
T separator is kept, and "2025-12-01T16:45:00" becomes "2025-12-01". -/
theorem C8_timestamp_truncation :
    (∀ (d t : List Char), (∀ ch ∈ d, ch ≠ 'T') →
      truncateToDate (String.mk (d ++ 'T' :: t)) = String.mk d) ∧
    (∀ (r : JsonRecord) (classes : List ClassDecl),
      (ingestJsonRecord r classes).lastModified = truncateToDate r.lastModified) ∧
    truncateToDate "2025-12-01T16:45:00" = "2025-12-01" := by
  refine ⟨?_, fun r classes => rfl, by decide⟩
  intro d t h
  unfold truncateToDate
  refine congrArg String.mk ?_
  exact takeWhile_append_all d t (fun c hc => decide_eq_true (h c hc)) (by decide)

/-- C8 witness: truncation of a concrete timestamp via the general
statement. -/
theorem C8_witness :
    truncateToDate (String.mk (['2', '0', '2', '5'] ++ 'T' :: ['1', '6'])) =
      String.mk ['2', '0', '2', '5'] :=
  C8_timestamp_truncation.1 ['2', '0', '2', '5'] ['1', '6'] (by decide)

/-- C9: a class with N visible (public, non-constructor) methods of
which K carry an eligible Capability marker has coverage exactly K/N
when N is nonzero, and the N = 0 case is total and uniformly reported
as full coverage, with no division performed. -/
theorem C9_coverage_fraction (c : ClassDecl) :
    ((visibleMethods c).length ≠ 0 →
      coverageFraction c =
        ((documentedMethods c).length : ℚ) / ((visibleMethods c).length : ℚ)) ∧
    ((visibleMethods c).length = 0 → coverageFraction c = 1) := by
  constructor <;> intro h <;> simp [coverageFraction, h]

/-- C9 witness: GmpEqualiser covers 2 of 3 visible methods; a class
with no visible method reports full coverage. -/
theorem C9_witness :
    coverageFraction gmpEqualiserClass = 2 / 3 ∧
    coverageFraction noVisibleMethodsClass = 1 := by
  constructor
  · have h := (C9_coverage_fraction gmpEqualiserClass).1 (by decide)
    have h2 : (documentedMethods gmpEqualiserClass).length = 2 := by decide
    have h3 : (visibleMethods gmpEqualiserClass).length = 3 := by decide
    rw [h, h2, h3]
    norm_num
  · exact (C9_coverage_fraction noVisibleMethodsClass).2 (by decide)
